import Mathlib

/-!
Verification development for the Reachy MR60BHA2 binary-framed firmware
(`src/hardware/arduino/reachy-sensor/reachy-sensor.ino`).

Modelling conventions (shallow embedding):
* machine bytes are `Nat` values, with `% 256` / `% 65536` / `% 2 ^ 32`
  truncations written out exactly where the C code's fixed-width integer
  types truncate;
* `float` sensor readings are modelled as `Option ℚ` — `none` stands for a
  non-finite value (NaN/∞), `some q` for a finite value taken as an exact
  rational.  The firmware only ever branches on `isfinite` / `isnan` and on
  order comparisons of these quantities, so no rounding behaviour is lost
  except where explicitly noted;
* `sqrtf(x*x + y*y)` is compared only against other such roots and against
  the constant `1e9`, and `sqrtf` is monotone, so the embedding carries the
  squared radius and compares against `1e18`;
* the imperative buffer loops (`cobsEncode`, `cobsDecode`) become explicit
  state-passing recursions; the C code's back-patched group-code byte is
  modelled by emitting each group (code byte followed by its data bytes)
  when the group closes, which writes exactly the bytes the C code writes.
-/

namespace ReachySensor

/-! ## Protocol constants (lines 39–72 of the source) -/

def PROTO_VERSION : Nat := 1

def CMD_SET_HM : Nat := 0x01
def CMD_SET_FOCUS : Nat := 0x02
def CMD_SET_BIO_MS : Nat := 0x03
def CMD_SET_TARGETS_MS : Nat := 0x04
def CMD_PING : Nat := 0x05

def EVT_ACK : Nat := 0x81
def EVT_ERR : Nat := 0x82
def EVT_PONG : Nat := 0x83
def EVT_HELLO : Nat := 0x90
def EVT_STATE : Nat := 0x91
def EVT_TARGETS : Nat := 0x92
def EVT_BIO : Nat := 0x93

def ACK_OK : Nat := 0
def ACK_CLAMPED : Nat := 1
def ACK_IGNORED : Nat := 2

def ERR_UNKNOWN_CMD : Nat := 1
def ERR_BAD_LEN : Nat := 2
def ERR_BAD_VALUE : Nat := 3
def ERR_CRC_FAIL : Nat := 4
def ERR_UNSUPPORTED_VERSION : Nat := 5

/-! ## CRC-16/CCITT-FALSE (`crc16CcittFalse`, lines 178–191) -/

/-- One shift step of the inner `for bit` loop: shift left, conditionally
xor with the polynomial `0x1021`, truncated to `uint16_t`. -/
def crcStep (c : Nat) : Nat :=
  if c &&& 0x8000 ≠ 0 then ((c <<< 1) ^^^ 0x1021) % 65536 else (c <<< 1) % 65536

/-- Processing of one input byte: `crc ^= (uint16_t)b << 8` followed by the
eight `crcStep` iterations. -/
def crcByte (c b : Nat) : Nat :=
  crcStep (crcStep (crcStep (crcStep (crcStep (crcStep (crcStep (crcStep
    ((c ^^^ ((b % 256) <<< 8)) % 65536))))))))

/-- `crc16CcittFalse(data, len)`: fold of `crcByte` from the initial value
`0xFFFF`. -/
def crc16CcittFalse (data : List Nat) : Nat :=
  data.foldl crcByte 0xFFFF

theorem crcStep_lt (c : Nat) : crcStep c < 65536 := by
  unfold crcStep
  split <;> exact Nat.mod_lt _ (by norm_num)

theorem crcByte_lt (c b : Nat) : crcByte c b < 65536 :=
  crcStep_lt _

theorem crc16_foldl_lt (data : List Nat) (c : Nat) (hc : c < 65536) :
    data.foldl crcByte c < 65536 := by
  induction data generalizing c with
  | nil => exact hc
  | cons b rest ih => exact ih _ (crcByte_lt _ _)

theorem crc16_lt (data : List Nat) : crc16CcittFalse data < 65536 :=
  crc16_foldl_lt data 0xFFFF (by norm_num)

/-! ## COBS encoding (`cobsEncode`, lines 223–258) -/

/-- Explicit state-passing form of the `cobsEncode` loop.

State correspondence with the C code: `done` is `output[0 .. codeIdx)`
(all fully written groups, each a code byte followed by its data bytes),
`grp` is `output(codeIdx .. writeIdx)` (the data bytes of the open group),
`code` is the running group code, `codeIdx = done.length` and
`writeIdx = done.length + grp.length + 1`.  `none` models `return 0`
(capacity exhausted). -/
def cobsEncodeAux (cap : Nat) : List Nat → List Nat → Nat → List Nat → Option (List Nat)
  | [], done, code, grp =>
    -- final `if (codeIdx >= outputCap) return 0; output[codeIdx] = code`
    if cap ≤ done.length then none else some (done ++ code :: grp)
  | b :: rest, done, code, grp =>
    if b = 0 then
      -- `output[codeIdx] = code; code = 1; codeIdx = writeIdx++`
      if cap ≤ done.length then none
      else if cap ≤ (done ++ code :: grp).length then none
      else cobsEncodeAux cap rest (done ++ code :: grp) 1 []
    else
      -- `if (writeIdx >= outputCap) return 0; output[writeIdx++] = byte; code++`
      if cap ≤ done.length + grp.length + 1 then none
      else if code + 1 = 255 then
        if cap ≤ done.length then none
        else if cap ≤ (done ++ 255 :: (grp ++ [b])).length then none
        else cobsEncodeAux cap rest (done ++ 255 :: (grp ++ [b])) 1 []
      else cobsEncodeAux cap rest done (code + 1) (grp ++ [b])

/-- `cobsEncode(input, inputLen, output, outputCap)`; `none` models the
`return 0` failure value, which `sendFrame` treats as a dropped frame. -/
def cobsEncode (input : List Nat) (outputCap : Nat) : Option (List Nat) :=
  if outputCap = 0 then none
  else cobsEncodeAux outputCap input [] 1 []

/-- Capacity-free functional form of the encoder, used to reason about the
bytes `cobsEncodeAux` produces. -/
def cobsEncodeP : List Nat → Nat → List Nat → List Nat
  | [], code, grp => code :: grp
  | b :: rest, code, grp =>
    if b = 0 then (code :: grp) ++ cobsEncodeP rest 1 []
    else if code + 1 = 255 then (255 :: (grp ++ [b])) ++ cobsEncodeP rest 1 []
    else cobsEncodeP rest (code + 1) (grp ++ [b])

/-! ## COBS decoding (`cobsDecode`, lines 260–286) -/

/-- Capacity-free functional form of the `cobsDecode` loop: reads a group
code, copies `code - 1` bytes, and restores a zero between groups unless the
code was `0xFF` or the stream ended. -/
def cobsDecodeP : List Nat → Option (List Nat)
  | [] => some []
  | c :: rest =>
    if c = 0 then none
    else if rest.length < c - 1 then none
    else
      (cobsDecodeP (rest.drop (c - 1))).map fun tail =>
        rest.take (c - 1) ++
          (if c < 255 ∧ rest.drop (c - 1) ≠ [] then [0] else []) ++ tail
termination_by input => input.length
decreasing_by
  simp only [List.length_cons, List.length_drop]
  omega

/-- The `cobsDecode` loop with the output-capacity checks; `n` is the
current `writeIdx`. -/
def cobsDecodeAux (cap : Nat) : List Nat → Nat → Option (List Nat)
  | [], _ => some []
  | c :: rest, n =>
    if c = 0 then none
    else if rest.length < c - 1 then none
    else if cap < n + (c - 1) then none
    else
      let rest' := rest.drop (c - 1)
      if c < 255 ∧ rest' ≠ [] then
        if cap ≤ n + (c - 1) then none
        else
          (cobsDecodeAux cap rest' (n + (c - 1) + 1)).map fun tail =>
            rest.take (c - 1) ++ [0] ++ tail
      else
        (cobsDecodeAux cap rest' (n + (c - 1))).map fun tail =>
          rest.take (c - 1) ++ tail
termination_by input _ => input.length
decreasing_by
  all_goals simp only [List.length_cons, List.length_drop]
  all_goals omega

/-- `cobsDecode(input, inputLen, output, outLen, outputCap)`; `none` models
`return false`. -/
def cobsDecode (input : List Nat) (outputCap : Nat) : Option (List Nat) :=
  if input = [] then none
  else cobsDecodeAux outputCap input 0

/-! ## COBS lemmas -/

theorem cobsEncodeP_length_ge (input : List Nat) :
    ∀ code grp, grp.length + 1 ≤ (cobsEncodeP input code grp).length := by
  induction input with
  | nil => intro code grp; simp [cobsEncodeP]
  | cons b rest ih =>
    intro code grp
    unfold cobsEncodeP
    split
    · simp
    · split
      · simp
      · have := ih (code + 1) (grp ++ [b])
        simp at this
        omega

theorem cobsEncodeP_ne_nil (input : List Nat) (code : Nat) (grp : List Nat) :
    cobsEncodeP input code grp ≠ [] := by
  have := cobsEncodeP_length_ge input code grp
  intro h
  rw [h] at this
  simp at this

theorem cobsEncodeP_length_le (input : List Nat) :
    ∀ code grp, code = grp.length + 1 →
      (cobsEncodeP input code grp).length ≤
        grp.length + input.length + 1 + (grp.length + input.length) / 254 := by
  induction input with
  | nil =>
    intro code grp _
    simp [cobsEncodeP]
  | cons b rest ih =>
    intro code grp hcode
    unfold cobsEncodeP
    split
    · -- zero byte: close the group
      have h := ih 1 [] rfl
      simp only [List.length_nil, Nat.zero_add] at h
      simp only [List.length_append, List.length_cons, List.length_nil]
      omega
    · split
      · -- group reached 254 data bytes: close at code 0xFF
        rename_i hb h255
        have hgrp : grp.length = 253 := by omega
        have h := ih 1 [] rfl
        simp only [List.length_nil, Nat.zero_add] at h
        simp only [List.length_append, List.length_cons, List.length_nil, hgrp]
        omega
      · have h := ih (code + 1) (grp ++ [b]) (by simp; omega)
        simp only [List.length_append, List.length_cons, List.length_nil] at h ⊢
        omega

theorem cobsEncodeP_ne_zero (input : List Nat) :
    ∀ code grp, 1 ≤ code → (∀ x ∈ grp, x ≠ 0) →
      ∀ x ∈ cobsEncodeP input code grp, x ≠ 0 := by
  induction input with
  | nil =>
    intro code grp hc hg x hx
    unfold cobsEncodeP at hx
    rcases List.mem_cons.mp hx with h | h
    · omega
    · exact hg x h
  | cons b rest ih =>
    intro code grp hc hg x hx
    unfold cobsEncodeP at hx
    split at hx
    · rcases List.mem_append.mp hx with h | h
      · rcases List.mem_cons.mp h with h' | h'
        · omega
        · exact hg x h'
      · exact ih 1 [] (by norm_num) (by simp) x h
    · split at hx
      · rename_i hb _
        rcases List.mem_append.mp hx with h | h
        · rcases List.mem_cons.mp h with h' | h'
          · omega
          · rcases List.mem_append.mp h' with h'' | h''
            · exact hg x h''
            · simp at h''; omega
        · exact ih 1 [] (by norm_num) (by simp) x h
      · rename_i hb _
        refine ih (code + 1) (grp ++ [b]) (by omega) ?_ x hx
        intro y hy
        rcases List.mem_append.mp hy with h | h
        · exact hg y h
        · simp at h; omega

/-- Decoding inverts the capacity-free encoder: feeding the encoder its
pending group state, the decoder recovers the group bytes followed by the
remaining input. -/
theorem cobsDecodeP_encodeP (input : List Nat) :
    ∀ code grp, code = grp.length + 1 → grp.length ≤ 253 →
      cobsDecodeP (cobsEncodeP input code grp) = some (grp ++ input) := by
  induction input with
  | nil =>
    intro code grp hcode hle
    rw [cobsEncodeP, cobsDecodeP]
    rw [if_neg (by omega), if_neg (by omega)]
    rw [show code - 1 = grp.length from by omega]
    rw [List.drop_length, List.take_length]
    rw [cobsDecodeP]
    simp
  | cons b rest ih =>
    intro code grp hcode hle
    rw [cobsEncodeP]
    by_cases hb : b = 0
    · simp only [if_pos hb]
      have hrec := ih 1 [] rfl (by norm_num)
      simp only [List.nil_append] at hrec
      rw [List.cons_append, cobsDecodeP]
      rw [if_neg (by omega)]
      rw [if_neg (by
        have := cobsEncodeP_length_ge rest 1 []
        simp only [List.length_append, not_lt]
        omega)]
      rw [show code - 1 = grp.length from by omega]
      rw [List.drop_left, List.take_left]
      rw [hrec, Option.map_some']
      rw [if_pos ⟨by omega, cobsEncodeP_ne_nil rest 1 []⟩]
      rw [hb]
      simp
    · simp only [if_neg hb]
      by_cases h255 : code + 1 = 255
      · simp only [if_pos h255]
        have hgrp : grp.length = 253 := by omega
        have hrec := ih 1 [] rfl (by norm_num)
        simp only [List.nil_append] at hrec
        rw [List.cons_append, cobsDecodeP]
        rw [if_neg (by norm_num)]
        rw [if_neg (by
          simp only [List.length_append, List.length_cons, List.length_nil, hgrp, not_lt]
          omega)]
        rw [show (255 : Nat) - 1 = ((grp ++ [b]) : List Nat).length from by
          simp [hgrp]]
        rw [List.drop_left, List.take_left]
        rw [hrec, Option.map_some']
        rw [if_neg (by simp)]
        simp
      · simp only [if_neg h255]
        have hrec := ih (code + 1) (grp ++ [b])
          (by simp only [List.length_append, List.length_cons, List.length_nil]; omega)
          (by simp only [List.length_append, List.length_cons, List.length_nil]; omega)
        rw [hrec]
        simp

/-- With enough capacity, the capped encoder runs to completion and produces
exactly the capacity-free encoder bytes. -/
theorem cobsEncodeAux_of_P (cap : Nat) (input : List Nat) :
    ∀ done code grp,
      done.length + (cobsEncodeP input code grp).length ≤ cap →
      cobsEncodeAux cap input done code grp = some (done ++ cobsEncodeP input code grp) := by
  induction input with
  | nil =>
    intro done code grp hcap
    rw [cobsEncodeP] at hcap ⊢
    rw [cobsEncodeAux]
    rw [if_neg (by simp only [List.length_cons] at hcap; omega)]
  | cons b rest ih =>
    intro done code grp hcap
    rw [cobsEncodeP] at hcap ⊢
    rw [cobsEncodeAux]
    have hge := cobsEncodeP_length_ge rest 1 []
    simp only [List.length_nil] at hge
    by_cases hb : b = 0
    · simp only [if_pos hb] at hcap ⊢
      simp only [List.length_append, List.length_cons] at hcap
      rw [if_neg (by omega)]
      rw [if_neg (by simp only [List.length_append, List.length_cons]; omega)]
      rw [ih (done ++ code :: grp) 1 []
        (by simp only [List.length_append, List.length_cons]; omega)]
      simp
    · simp only [if_neg hb] at hcap ⊢
      by_cases h255 : code + 1 = 255
      · simp only [if_pos h255] at hcap ⊢
        simp only [List.length_append, List.length_cons, List.length_nil] at hcap
        rw [if_neg (by omega)]
        rw [if_neg (by omega)]
        rw [if_neg (by
          simp only [List.length_append, List.length_cons, List.length_nil]; omega)]
        rw [ih (done ++ 255 :: (grp ++ [b])) 1 []
          (by simp only [List.length_append, List.length_cons, List.length_nil]; omega)]
        simp
      · simp only [if_neg h255] at hcap ⊢
        have hlow := cobsEncodeP_length_ge rest (code + 1) (grp ++ [b])
        simp only [List.length_append, List.length_cons, List.length_nil] at hlow hcap
        rw [if_neg (by omega)]
        exact ih done (code + 1) (grp ++ [b]) (by omega)

/-- With enough capacity for the decoded output, the capped decoder agrees
with the capacity-free one. -/
theorem cobsDecodeAux_of_P (cap : Nat) (input : List Nat) (n : Nat) (out : List Nat)
    (hP : cobsDecodeP input = some out) (hcap : n + out.length ≤ cap) :
    cobsDecodeAux cap input n = some out := by
  match input with
  | [] =>
    rw [cobsDecodeP] at hP
    rw [cobsDecodeAux]
    exact hP
  | c :: rest =>
    rw [cobsDecodeP] at hP
    by_cases hc : c = 0
    · rw [if_pos hc] at hP; exact absurd hP (by simp)
    rw [if_neg hc] at hP
    by_cases hl : rest.length < c - 1
    · rw [if_pos hl] at hP; exact absurd hP (by simp)
    rw [if_neg hl] at hP
    rcases hrec : cobsDecodeP (rest.drop (c - 1)) with _ | tail
    · rw [hrec] at hP; exact absurd hP (by simp)
    rw [hrec, Option.map_some'] at hP
    simp only [Option.some.injEq] at hP
    have htakelen : (rest.take (c - 1)).length = c - 1 := by
      simp only [List.length_take]
      omega
    rw [cobsDecodeAux]
    rw [if_neg hc, if_neg hl]
    by_cases hz : c < 255 ∧ rest.drop (c - 1) ≠ []
    · have hout : out.length = (c - 1) + 1 + tail.length := by
        rw [← hP]
        simp only [List.length_append, List.length_cons, htakelen]
        rw [if_pos hz]
        simp
      rw [if_neg (by omega)]
      simp only
      rw [if_pos hz, if_neg (by omega)]
      rw [cobsDecodeAux_of_P cap (rest.drop (c - 1)) (n + (c - 1) + 1) tail hrec (by omega)]
      rw [Option.map_some', ← hP, if_pos hz]
    · have hout : out.length = (c - 1) + tail.length := by
        rw [← hP]
        simp only [List.length_append, List.length_cons, htakelen]
        rw [if_neg hz]
        simp
      rw [if_neg (by omega)]
      simp only
      rw [if_neg hz]
      rw [cobsDecodeAux_of_P cap (rest.drop (c - 1)) (n + (c - 1)) tail hrec (by omega)]
      rw [Option.map_some', ← hP, if_neg hz]
      simp
termination_by input.length
decreasing_by
  all_goals simp only [List.length_cons, List.length_drop]
  all_goals omega

/-! ## Frame construction (`sendFrame`, lines 304–326) -/

/-- Little-endian bytes of a `uint16_t` value, as written by `appendU16LE`. -/
def u16le (v : Nat) : List Nat := [v % 256, v / 256 % 256]

/-- Little-endian bytes of a `uint32_t` value, as written by `appendU32LE`. -/
def u32le (v : Nat) : List Nat :=
  [v % 256, v / 256 % 256, v / 65536 % 256, v / 16777216 % 256]

/-- `readU16LE(buf)` at offset `i` of a packet: `buf[0] | buf[1] << 8`. -/
def readU16at (pkt : List Nat) (i : Nat) : Nat :=
  pkt.getD i 0 + 256 * pkt.getD (i + 1) 0

/-- The unstuffed packet `sendFrame` assembles: version, msg type, sequence
number (LE), payload length (LE), payload, then CRC-16 (LE) over everything
before it. -/
def buildPacket (msgType seq : Nat) (payload : List Nat) : List Nat :=
  let body := [PROTO_VERSION, msgType % 256, seq % 256, seq / 256 % 256,
    payload.length % 256, payload.length / 256 % 256] ++ payload
  body ++ u16le (crc16CcittFalse body)

/-- `sendFrame(msgType, payload, payloadLen)`: drops the frame when the
payload exceeds the 384-byte payload buffer or COBS encoding fails on the
640-byte encode buffer; otherwise emits the stuffed bytes plus the `0x00`
delimiter.  `seq` is the current `txSeq` value. -/
def sendFrame (msgType seq : Nat) (payload : List Nat) : Option (List Nat) :=
  if payload.length > 384 then none
  else
    match cobsEncode (buildPacket msgType seq payload) 640 with
    | none => none
    | some enc => some (enc ++ [0])

/-! ## Inbound packet validation (`handleDecodedPacket`, lines 568–597) -/

/-- Outcome of `handleDecodedPacket`: either an `emitErr(cmdId, errCode)` or
a dispatch of the validated `(msgType, payload)` to `applyBinaryCommand`. -/
inductive DecodeResult where
  | err (cmdId errCode : Nat)
  | dispatch (msgType : Nat) (payload : List Nat)
deriving DecidableEq, Repr

/-- `handleDecodedPacket(packet, packetLen)`: minimum-length check, then
version, then exact length, then CRC, in the source order. -/
def handleDecodedPacket (packet : List Nat) : DecodeResult :=
  if packet.length < 8 then .err 0 ERR_BAD_LEN
  else
    let version := packet.getD 0 0
    let msgType := packet.getD 1 0
    let payloadLen := readU16at packet 4
    if version ≠ PROTO_VERSION then .err msgType ERR_UNSUPPORTED_VERSION
    else if packet.length ≠ 6 + payloadLen + 2 then .err msgType ERR_BAD_LEN
    else
      let crcExpected := readU16at packet (6 + payloadLen)
      let crcActual := crc16CcittFalse (packet.take (6 + payloadLen))
      if crcExpected ≠ crcActual then .err msgType ERR_CRC_FAIL
      else .dispatch msgType ((packet.drop 6).take payloadLen)

/-! ## Inbound byte pump (`pollHostUsbSerial`, lines 599–636) -/

/-- Receiver state: the accumulated stuffed bytes (capacity 384) and the
overflow flag. -/
structure RxState where
  buf : List Nat
  overflow : Bool
deriving DecidableEq, Repr

/-- One iteration of the `pollHostUsbSerial` loop for one inbound byte. -/
def feedByte (rx : RxState) (b : Nat) : RxState × List DecodeResult :=
  if b = 0 then
    if rx.overflow then (⟨[], false⟩, [.err 0 ERR_BAD_LEN])
    else if rx.buf = [] then (rx, [])
    else
      match cobsDecode rx.buf 384 with
      | none => (⟨[], false⟩, [.err 0 ERR_BAD_LEN])
      | some pkt => (⟨[], false⟩, [handleDecodedPacket pkt])
  else
    if rx.overflow then (rx, [])
    else if rx.buf.length < 384 then (⟨rx.buf ++ [b], false⟩, [])
    else (⟨rx.buf, true⟩, [])

/-- Feeding a byte sequence through the receiver, collecting every decode
outcome in order. -/
def feedBytes (rx : RxState) (bs : List Nat) : RxState × List DecodeResult :=
  match bs with
  | [] => (rx, [])
  | b :: rest =>
    let (rx1, evs1) := feedByte rx b
    let (rx2, evs2) := feedBytes rx1 rest
    (rx2, evs1 ++ evs2)

/-! ## Command dispatcher (`applyBinaryCommand`, lines 504–566) -/

/-- Mutable configuration written only by the dispatcher (lines 147–151). -/
structure Config where
  hostHeadMoving : Bool
  forcedFocusCluster : Int
  BIO_MS : Nat
  TARGETS_MS : Nat
deriving DecidableEq, Repr

/-- Events the dispatcher can emit (`emitAck`, `emitErr`, `emitPong`). -/
inductive HostEvent where
  | ack (cmdId statusCode : Nat) (value : Int)
  | err (cmdId errCode : Nat)
  | pong (t_ms : Nat)
deriving DecidableEq, Repr

/-- `readI16LE`: two little-endian bytes as a signed 16-bit value. -/
def i16FromBytes (b0 b1 : Nat) : Int :=
  let v := b0 % 256 + 256 * (b1 % 256)
  if v < 32768 then (v : Int) else (v : Int) - 65536

/-- `applyBinaryCommand(msgType, payload, payloadLen)`: validates each
command (exact length, then value range), mutates the configuration and
emits the ack, error, or pong.  `t_ms` stands for `millis() - t0` used by
the `CMD_PING` handler. -/
def applyBinaryCommand (cfg : Config) (t_ms : Nat) (msgType : Nat) (payload : List Nat) :
    Config × List HostEvent :=
  if msgType = CMD_SET_HM then
    if payload.length ≠ 1 then (cfg, [.err msgType ERR_BAD_LEN])
    else
      let hm := payload.getD 0 0
      if hm ≠ 0 ∧ hm ≠ 1 then (cfg, [.err msgType ERR_BAD_VALUE])
      else
        let cfg' := { cfg with hostHeadMoving := hm = 1 }
        (cfg', [.ack msgType ACK_OK (if cfg'.hostHeadMoving then 1 else 0)])
  else if msgType = CMD_SET_FOCUS then
    if payload.length ≠ 2 then (cfg, [.err msgType ERR_BAD_LEN])
    else
      let c := i16FromBytes (payload.getD 0 0) (payload.getD 1 0)
      ({ cfg with forcedFocusCluster := c }, [.ack msgType ACK_OK c])
  else if msgType = CMD_SET_BIO_MS then
    if payload.length ≠ 2 then (cfg, [.err msgType ERR_BAD_LEN])
    else
      let req := readU16at payload 0
      let applied := if req < 50 then 50 else req
      let status := if applied = req then ACK_OK else ACK_CLAMPED
      ({ cfg with BIO_MS := applied }, [.ack msgType status (applied : Int)])
  else if msgType = CMD_SET_TARGETS_MS then
    if payload.length ≠ 2 then (cfg, [.err msgType ERR_BAD_LEN])
    else
      let req := readU16at payload 0
      let applied := if req < 50 then 50 else req
      let status := if applied = req then ACK_OK else ACK_CLAMPED
      ({ cfg with TARGETS_MS := applied }, [.ack msgType status (applied : Int)])
  else if msgType = CMD_PING then
    if payload.length ≠ 0 then (cfg, [.err msgType ERR_BAD_LEN])
    else (cfg, [.pong t_ms])
  else (cfg, [.err msgType ERR_UNKNOWN_CMD])

theorem buildPacket_length (m s : Nat) (p : List Nat) :
    (buildPacket m s p).length = p.length + 8 := by
  simp [buildPacket, u16le]

theorem handleDecodedPacket_buildPacket (m s : Nat) (p : List Nat)
    (hlen : p.length < 65536) :
    handleDecodedPacket (buildPacket m s p) = .dispatch (m % 256) p := by
  have hL := buildPacket_length m s p
  set hd6 : List Nat := [PROTO_VERSION, m % 256, s % 256, s / 256 % 256,
    p.length % 256, p.length / 256 % 256] with hhd6
  have hbody : buildPacket m s p =
      hd6 ++ (p ++ u16le (crc16CcittFalse (hd6 ++ p))) := by
    simp [buildPacket, hhd6]
  have hcrc := crc16_lt (hd6 ++ p)
  set crc := crc16CcittFalse (hd6 ++ p) with hcrcdef
  have hhd6len : hd6.length = 6 := by simp [hhd6]
  unfold handleDecodedPacket
  rw [if_neg (by omega)]
  have hget0 : (buildPacket m s p).getD 0 0 = PROTO_VERSION := by
    rw [hbody]; simp [hhd6]
  have hget1 : (buildPacket m s p).getD 1 0 = m % 256 := by
    rw [hbody]; simp [hhd6]
  have hget4 : readU16at (buildPacket m s p) 4 = p.length := by
    rw [hbody]
    unfold readU16at
    rw [List.getD_append _ _ 0 4 (by omega), List.getD_append _ _ 0 5 (by omega)]
    simp [hhd6]
    omega
  rw [hget0, hget1, hget4]
  rw [if_neg (by simp [PROTO_VERSION])]
  rw [if_neg (by omega)]
  have htake : (buildPacket m s p).take (6 + p.length) = hd6 ++ p := by
    rw [hbody, ← List.append_assoc]
    rw [show 6 + p.length = ((hd6 ++ p) : List Nat).length from by
      simp [hhd6len]]
    exact List.take_left _ _
  have hcrcread : readU16at (buildPacket m s p) (6 + p.length) = crc := by
    rw [hbody, ← List.append_assoc]
    unfold readU16at
    have h1 : ((hd6 ++ p) : List Nat).length ≤ 6 + p.length := by simp [hhd6len]
    rw [List.getD_append_right _ _ 0 (6 + p.length) h1,
        List.getD_append_right _ _ 0 (6 + p.length + 1) (by simp [hhd6len])]
    simp [hhd6len, u16le]
    omega
  rw [hcrcread, htake, ← hcrcdef]
  rw [if_neg (by omega)]
  have hdrop : ((buildPacket m s p).drop 6).take p.length = p := by
    rw [hbody]
    rw [show (6 : Nat) = hd6.length from hhd6len.symm]
    rw [List.drop_left]
    exact List.take_left _ _
  rw [hdrop]
theorem feedBytes_append (rx : RxState) (xs ys : List Nat) :
    feedBytes rx (xs ++ ys) =
      ((feedBytes (feedBytes rx xs).1 ys).1,
        (feedBytes rx xs).2 ++ (feedBytes (feedBytes rx xs).1 ys).2) := by
  induction xs generalizing rx with
  | nil => simp [feedBytes]
  | cons b rest ih =>
    simp only [List.cons_append, feedBytes, List.append_eq]
    rw [ih (feedByte rx b).1]
    simp [List.append_assoc]

theorem feedBytes_nonzero (bs : List Nat) :
    ∀ acc, (∀ b ∈ bs, b ≠ 0) → acc.length + bs.length ≤ 384 →
      feedBytes ⟨acc, false⟩ bs = (⟨acc ++ bs, false⟩, []) := by
  induction bs with
  | nil => intro acc _ _; simp [feedBytes]
  | cons b rest ih =>
    intro acc hnz hlen
    simp only [feedBytes]
    have hb : feedByte ⟨acc, false⟩ b = (⟨acc ++ [b], false⟩, []) := by
      unfold feedByte
      rw [if_neg (hnz b (by simp))]
      simp only
      rw [if_neg (by simp)]
      rw [if_pos (by simp at hlen ⊢; omega)]
    rw [hb]
    rw [ih (acc ++ [b]) (fun x hx => hnz x (by simp [hx]))
      (by simp at hlen ⊢; omega)]
    simp

/-- C1: frame round-trip.  Every frame built by `sendFrame` (header,
payload, CRC, COBS-stuffed, `0x00`-terminated) contains no zero byte before
the terminator, COBS-decodes back to the exact packet, passes the length,
version and CRC validation, and — fed byte-by-byte into the receiver —
produces exactly one decode outcome, the dispatch of the original
`(msg_type, payload)`. -/
theorem c1_frame_roundtrip (m s : Nat) (p : List Nat)
    (hm : m < 256) (hlen : p.length ≤ 256) :
    ∃ enc,
      sendFrame m s p = some (enc ++ [0]) ∧
      (∀ b ∈ enc, b ≠ 0) ∧
      cobsDecode enc 384 = some (buildPacket m s p) ∧
      handleDecodedPacket (buildPacket m s p) = .dispatch m p ∧
      feedBytes ⟨[], false⟩ (enc ++ [0]) =
        (⟨[], false⟩, [.dispatch m p]) := by
  have hL := buildPacket_length m s p
  have hle := cobsEncodeP_length_le (buildPacket m s p) 1 [] rfl
  simp only [List.length_nil, Nat.zero_add] at hle
  have hencl : (cobsEncodeP (buildPacket m s p) 1 []).length ≤ 266 := by omega
  have hnz := cobsEncodeP_ne_zero (buildPacket m s p) 1 [] (by norm_num) (by simp)
  have hne := cobsEncodeP_ne_nil (buildPacket m s p) 1 []
  have hdecP : cobsDecodeP (cobsEncodeP (buildPacket m s p) 1 []) =
      some (buildPacket m s p) := by
    have h := cobsDecodeP_encodeP (buildPacket m s p) 1 [] rfl (by norm_num)
    simpa using h
  have hdec : cobsDecode (cobsEncodeP (buildPacket m s p) 1 []) 384 =
      some (buildPacket m s p) := by
    unfold cobsDecode
    rw [if_neg hne]
    exact cobsDecodeAux_of_P 384 _ 0 _ hdecP (by omega)
  have hhandle : handleDecodedPacket (buildPacket m s p) = .dispatch m p := by
    rw [handleDecodedPacket_buildPacket m s p (by omega), Nat.mod_eq_of_lt hm]
  have hsend : sendFrame m s p =
      some (cobsEncodeP (buildPacket m s p) 1 [] ++ [0]) := by
    unfold sendFrame
    rw [if_neg (by omega)]
    have he : cobsEncode (buildPacket m s p) 640 =
        some (cobsEncodeP (buildPacket m s p) 1 []) := by
      unfold cobsEncode
      rw [if_neg (by norm_num)]
      have h := cobsEncodeAux_of_P 640 (buildPacket m s p) [] 1 []
        (by simp only [List.length_nil, Nat.zero_add]; omega)
      simpa using h
    rw [he]
  have hfeed : feedBytes ⟨[], false⟩ (cobsEncodeP (buildPacket m s p) 1 [] ++ [0]) =
      (⟨[], false⟩, [DecodeResult.dispatch m p]) := by
    rw [feedBytes_append]
    rw [feedBytes_nonzero _ [] hnz
      (by simp only [List.length_nil, Nat.zero_add]; omega)]
    simp [feedBytes, feedByte, hdec, hne, hhandle]
  exact ⟨_, hsend, hnz, hdec, hhandle, hfeed⟩
/-- Witness for C1: concrete round-trip of msg type 3, sequence 0,
payload `[10, 0]` (containing a zero byte). -/
theorem c1_frame_roundtrip_witness :
    ∃ enc,
      sendFrame 3 0 [10, 0] = some (enc ++ [0]) ∧
      (∀ b ∈ enc, b ≠ 0) ∧
      cobsDecode enc 384 = some (buildPacket 3 0 [10, 0]) ∧
      handleDecodedPacket (buildPacket 3 0 [10, 0]) = .dispatch 3 [10, 0] ∧
      feedBytes ⟨[], false⟩ (enc ++ [0]) =
        (⟨[], false⟩, [.dispatch 3 [10, 0]]) :=
  c1_frame_roundtrip 3 0 [10, 0] (by norm_num) (by norm_num)

/-- Counterexample to C2 as stated: the packet `[2,7,0,0,0,0,0,0,0]` has
total length 9, which differs from `6 + payload_len + 2 = 8`, yet the
decoder reports `ERR_UNSUPPORTED_VERSION` (version byte 2 is checked
first), not `ERR_BAD_LEN`. -/
theorem c2_counterexample :
    ([2, 7, 0, 0, 0, 0, 0, 0, 0] : List Nat).length ≠
      6 + readU16at [2, 7, 0, 0, 0, 0, 0, 0, 0] 4 + 2 ∧
    handleDecodedPacket [2, 7, 0, 0, 0, 0, 0, 0, 0] =
      .err 7 ERR_UNSUPPORTED_VERSION ∧
    handleDecodedPacket [2, 7, 0, 0, 0, 0, 0, 0, 0] ≠ .err 7 ERR_BAD_LEN := by
  refine ⟨by decide, ?_, ?_⟩ <;> decide

/-- C2 (amended): the decoder first rejects packets shorter than 8 bytes
with `ERR_BAD_LEN` and `cmd_id = 0`; for packets of at least 8 bytes the
version byte is validated BEFORE the exact-length check, so a packet with
both a wrong length and a version other than 1 yields
`ERR_UNSUPPORTED_VERSION`; only packets with version 1 and a total length
differing from `6 + payload_len + 2` yield `ERR_BAD_LEN` with
`cmd_id = msg_type`. -/
theorem c2_decoder_validation_order (pkt : List Nat) :
    (pkt.length < 8 → handleDecodedPacket pkt = .err 0 ERR_BAD_LEN) ∧
    (8 ≤ pkt.length → pkt.getD 0 0 ≠ PROTO_VERSION →
      handleDecodedPacket pkt = .err (pkt.getD 1 0) ERR_UNSUPPORTED_VERSION) ∧
    (8 ≤ pkt.length → pkt.getD 0 0 = PROTO_VERSION →
      pkt.length ≠ 6 + readU16at pkt 4 + 2 →
      handleDecodedPacket pkt = .err (pkt.getD 1 0) ERR_BAD_LEN) := by
  refine ⟨fun h => ?_, fun h8 hv => ?_, fun h8 hv hl => ?_⟩
  · unfold handleDecodedPacket
    rw [if_pos h]
  · unfold handleDecodedPacket
    rw [if_neg (by omega), if_pos hv]
  · unfold handleDecodedPacket
    rw [if_neg (by omega), if_neg (by simpa using hv), if_pos hl]

/-- Witness for the amended C2: a version-1 packet of length 9 whose
payload-length field says 3 (expected total 11) is rejected as
`ERR_BAD_LEN` carrying its msg type 9. -/
theorem c2_decoder_validation_order_witness :
    handleDecodedPacket [1, 9, 0, 0, 3, 0, 0, 0, 0] = .err 9 ERR_BAD_LEN := by
  have h := (c2_decoder_validation_order [1, 9, 0, 0, 3, 0, 0, 0, 0]).2.2
    (by norm_num) (by decide) (by decide)
  simpa using h
/-- C7: period clamping.  For `SET_BIO_MS` and `SET_TARGETS_MS` with a
2-byte payload requesting `ms`, the applied period is `max ms 50`, the ack
status is `CLAMPED` exactly when `ms < 50` (`OK` otherwise), and the ack
value equals the applied period, which is also stored as the new period. -/
theorem c7_period_clamping (cfg : Config) (t ms : Nat) (hms : ms < 65536) :
    applyBinaryCommand cfg t CMD_SET_BIO_MS (u16le ms) =
      ({ cfg with BIO_MS := max ms 50 },
        [.ack CMD_SET_BIO_MS (if ms < 50 then ACK_CLAMPED else ACK_OK)
          ((max ms 50 : Nat) : Int)]) ∧
    applyBinaryCommand cfg t CMD_SET_TARGETS_MS (u16le ms) =
      ({ cfg with TARGETS_MS := max ms 50 },
        [.ack CMD_SET_TARGETS_MS (if ms < 50 then ACK_CLAMPED else ACK_OK)
          ((max ms 50 : Nat) : Int)]) := by
  have hread : readU16at (u16le ms) 0 = ms := by
    unfold readU16at u16le
    simp only [List.getD_cons_zero, List.getD_cons_succ]
    omega
  have hulen : (u16le ms).length = 2 := by simp [u16le]
  constructor
  · unfold applyBinaryCommand
    rw [if_neg (by norm_num [CMD_SET_BIO_MS, CMD_SET_HM]),
        if_neg (by norm_num [CMD_SET_BIO_MS, CMD_SET_FOCUS]),
        if_pos rfl,
        if_neg (by omega)]
    rw [hread]
    by_cases h50 : ms < 50
    · have h1 : max ms 50 = 50 := by omega
      have h2 : ¬ (50 = ms) := by omega
      simp [h50, h1, h2, ACK_CLAMPED]
    · have h1 : max ms 50 = ms := by omega
      simp [h50, h1, ACK_OK]
  · unfold applyBinaryCommand
    rw [if_neg (by norm_num [CMD_SET_TARGETS_MS, CMD_SET_HM]),
        if_neg (by norm_num [CMD_SET_TARGETS_MS, CMD_SET_FOCUS]),
        if_neg (by norm_num [CMD_SET_TARGETS_MS, CMD_SET_BIO_MS]),
        if_pos rfl,
        if_neg (by omega)]
    rw [hread]
    by_cases h50 : ms < 50
    · have h1 : max ms 50 = 50 := by omega
      have h2 : ¬ (50 = ms) := by omega
      simp [h50, h1, h2, ACK_CLAMPED]
    · have h1 : max ms 50 = ms := by omega
      simp [h50, h1, ACK_OK]

/-- Witness for C7: requesting 10 ms yields
`EVT_ACK(cmd_id = 0x03, status = CLAMPED, value = 50)` and a bio period of
50 ms. -/
theorem c7_period_clamping_witness :
    applyBinaryCommand ⟨false, -1, 1000, 250⟩ 0 CMD_SET_BIO_MS (u16le 10) =
      ({ hostHeadMoving := false, forcedFocusCluster := -1,
         BIO_MS := 50, TARGETS_MS := 250 },
        [.ack CMD_SET_BIO_MS ACK_CLAMPED 50]) := by
  have h := (c7_period_clamping ⟨false, -1, 1000, 250⟩ 0 10 (by norm_num)).1
  simpa using h
/-- C8: semantic-error atomicity.  Whenever the dispatcher reports an error
(`ERR_UNKNOWN_CMD`, `ERR_BAD_LEN`, or `ERR_BAD_VALUE` are the only codes it
can produce), that error is the single emitted event, it carries the
offending command id, and the configuration is unchanged; validation is
length-exact first (wrong length beats a bad value), then value range, then
apply; unknown msg types yield `ERR_UNKNOWN_CMD`. -/
theorem c8_semantic_error_atomicity (cfg : Config) (t m : Nat) (p : List Nat) :
    (∀ c k, HostEvent.err c k ∈ (applyBinaryCommand cfg t m p).2 →
      (applyBinaryCommand cfg t m p).2 = [HostEvent.err m k] ∧
      (k = ERR_UNKNOWN_CMD ∨ k = ERR_BAD_LEN ∨ k = ERR_BAD_VALUE) ∧
      (applyBinaryCommand cfg t m p).1 = cfg) ∧
    (m = CMD_SET_HM → p.length ≠ 1 →
      applyBinaryCommand cfg t m p = (cfg, [.err m ERR_BAD_LEN])) ∧
    (m = CMD_SET_HM → p.length = 1 → p.getD 0 0 ≠ 0 → p.getD 0 0 ≠ 1 →
      applyBinaryCommand cfg t m p = (cfg, [.err m ERR_BAD_VALUE])) ∧
    ((m = CMD_SET_FOCUS ∨ m = CMD_SET_BIO_MS ∨ m = CMD_SET_TARGETS_MS) →
      p.length ≠ 2 →
      applyBinaryCommand cfg t m p = (cfg, [.err m ERR_BAD_LEN])) ∧
    (m = CMD_PING → p.length ≠ 0 →
      applyBinaryCommand cfg t m p = (cfg, [.err m ERR_BAD_LEN])) ∧
    (m ≠ CMD_SET_HM → m ≠ CMD_SET_FOCUS → m ≠ CMD_SET_BIO_MS →
      m ≠ CMD_SET_TARGETS_MS → m ≠ CMD_PING →
      applyBinaryCommand cfg t m p = (cfg, [.err m ERR_UNKNOWN_CMD])) := by
  refine ⟨?_, ?_, ?_, ?_, ?_, ?_⟩
  · intro c k hmem
    unfold applyBinaryCommand at hmem ⊢
    split_ifs at hmem ⊢ <;>
      first
        | (simp_all; done)
        | (simp_all; split_ifs at hmem ⊢ <;> simp_all)
  · intro hm hlen
    unfold applyBinaryCommand
    rw [if_pos hm, if_pos hlen]
  · intro hm hlen h0 h1
    unfold applyBinaryCommand
    rw [if_pos hm, if_neg (by omega)]
    simp only
    rw [if_pos ⟨h0, h1⟩]
  · intro hm hlen
    rcases hm with hm | hm | hm
    · unfold applyBinaryCommand
      rw [if_neg (by rw [hm]; norm_num [CMD_SET_FOCUS, CMD_SET_HM]),
          if_pos hm, if_pos hlen]
    · unfold applyBinaryCommand
      rw [if_neg (by rw [hm]; norm_num [CMD_SET_BIO_MS, CMD_SET_HM]),
          if_neg (by rw [hm]; norm_num [CMD_SET_BIO_MS, CMD_SET_FOCUS]),
          if_pos hm, if_pos hlen]
    · unfold applyBinaryCommand
      rw [if_neg (by rw [hm]; norm_num [CMD_SET_TARGETS_MS, CMD_SET_HM]),
          if_neg (by rw [hm]; norm_num [CMD_SET_TARGETS_MS, CMD_SET_FOCUS]),
          if_neg (by rw [hm]; norm_num [CMD_SET_TARGETS_MS, CMD_SET_BIO_MS]),
          if_pos hm, if_pos hlen]
  · intro hm hlen
    unfold applyBinaryCommand
    rw [if_neg (by rw [hm]; norm_num [CMD_PING, CMD_SET_HM]),
        if_neg (by rw [hm]; norm_num [CMD_PING, CMD_SET_FOCUS]),
        if_neg (by rw [hm]; norm_num [CMD_PING, CMD_SET_BIO_MS]),
        if_neg (by rw [hm]; norm_num [CMD_PING, CMD_SET_TARGETS_MS]),
        if_pos hm, if_pos hlen]
  · intro h1 h2 h3 h4 h5
    unfold applyBinaryCommand
    rw [if_neg h1, if_neg h2, if_neg h3, if_neg h4, if_neg h5]

/-- Witness for C8: an unknown command id `0x7F` yields exactly one
`EVT_ERR(cmd_id = 0x7F, ERR_UNKNOWN_CMD)` and leaves the configuration
untouched. -/
theorem c8_semantic_error_atomicity_witness :
    applyBinaryCommand ⟨false, -1, 1000, 250⟩ 0 0x7F [] =
      (⟨false, -1, 1000, 250⟩, [.err 0x7F ERR_UNKNOWN_CMD]) :=
  (c8_semantic_error_atomicity ⟨false, -1, 1000, 250⟩ 0 0x7F []).2.2.2.2.2
    (by norm_num [CMD_SET_HM]) (by norm_num [CMD_SET_FOCUS])
    (by norm_num [CMD_SET_BIO_MS]) (by norm_num [CMD_SET_TARGETS_MS])
    (by norm_num [CMD_PING])
/-! ## Radar-frame data and the fusion engine (`loop`, lines 651–786) -/

/-- A driver `float`: `none` is a non-finite value (NaN or ∞), `some q` a
finite value as an exact rational. -/
abbrev FVal := Option ℚ

/-- `isFinitePositive(v)` (line 171). -/
def isFinitePositive (v : FVal) : Bool :=
  match v with
  | none => false
  | some q => decide (0 < q)

/-- `ok && isfinite(v) && lo <= v && v <= hi`-style range test; also models
`!isnan(v) && lo <= v && v <= hi` for values that are finite-or-NaN (the
loop never produces an infinite downstream value, because the last-good
update stores only finite values). -/
def inRange (v : FVal) (lo hi : ℚ) : Bool :=
  match v with
  | some q => decide (lo ≤ q) && decide (q ≤ hi)
  | none => false

/-- One radar target of `PeopleCounting::targets`. -/
structure Target where
  cluster_index : Int
  x_point : FVal
  y_point : FVal
  dop_index : FVal
deriving DecidableEq, Repr

/-- The squared radius `x*x + y*y`; `none` when either coordinate is
non-finite (then `r = sqrtf(x*x + y*y)` is NaN and `isfinite(r)` fails).
`sqrtf` is strictly monotone on the nonnegative reals, so every comparison
the code makes on roots is carried out here on squares. -/
def rsqOf (t : Target) : FVal :=
  match t.x_point, t.y_point with
  | some x, some y => some (x * x + y * y)
  | _, _ => none

/-- `t.dop_index * RANGE_STEP` with the default `RANGE_STEP = 1.0f`. -/
def speedOf (t : Target) : FVal :=
  t.dop_index.map (fun d => d * 1)

/-- `FocusTarget` (lines 92–101); `rsq` carries the square of `r_m`, and
`bearing_deg` (used only in telemetry fields no claim touches) is
omitted. -/
structure FocusTarget where
  valid : Bool := false
  index : Int := -1
  cluster : Int := -1
  x_m : FVal := none
  y_m : FVal := none
  rsq : FVal := none
  speed_cm_s : FVal := none
deriving DecidableEq, Repr

/-- The fields `pickClosestTarget` stores when target `t` at list index `i`
with finite squared radius `v` becomes the running best. -/
def mkFocus (i : Nat) (t : Target) (v : ℚ) : FocusTarget :=
  { valid := true, index := (i : Int), cluster := t.cluster_index,
    x_m := t.x_point, y_m := t.y_point, rsq := some v,
    speed_cm_s := speedOf t }

/-- The `for` loop of `pickClosestTarget`: skip non-finite radii, replace
the best on strictly smaller radius. -/
def pickClosestAux : List Target → Nat → FocusTarget → ℚ → FocusTarget
  | [], _, best, _ => best
  | t :: rest, i, best, bestRsq =>
    match rsqOf t with
    | none => pickClosestAux rest (i + 1) best bestRsq
    | some v =>
      if v < bestRsq then pickClosestAux rest (i + 1) (mkFocus i t v) v
      else pickClosestAux rest (i + 1) best bestRsq

/-- `pickClosestTarget` (lines 450–474): nearest finite-radius target under
strict comparison against a best initialised to `1e9` (squared `1e18`). -/
def pickClosestTarget (ts : List Target) : FocusTarget :=
  pickClosestAux ts 0 {} (10 ^ 18)

/-- The fields `pickForcedCluster` stores for the first matching target
(no finiteness check on the radius there). -/
def mkFocusForced (i : Nat) (t : Target) : FocusTarget :=
  { valid := true, index := (i : Int), cluster := t.cluster_index,
    x_m := t.x_point, y_m := t.y_point, rsq := rsqOf t,
    speed_cm_s := speedOf t }

/-- The `for` loop of `pickForcedCluster`: first target whose cluster id
matches. -/
def pickForcedAux : List Target → Nat → Int → FocusTarget
  | [], _, _ => {}
  | t :: rest, i, cluster =>
    if t.cluster_index = cluster then mkFocusForced i t
    else pickForcedAux rest (i + 1) cluster

/-- `pickForcedCluster` (lines 476–499). -/
def pickForcedCluster (ts : List Target) (cluster : Int) : FocusTarget :=
  if cluster < 0 then {} else pickForcedAux ts 0 cluster

/-- The focus choice of the loop (lines 666–674): forced cluster when
requested and present, else nearest; no focus without targets. -/
def selectFocus (forced : Int) (haveTargets : Bool) (ts : List Target) :
    FocusTarget :=
  if haveTargets ∧ ts.length > 0 then
    if forced ≥ 0 then
      let f := pickForcedCluster ts forced
      if f.valid then f else pickClosestTarget ts
    else pickClosestTarget ts
  else {}

/-! ## Engine state and the per-frame fusion step -/

/-- Tuning constants (lines 106–127). -/
def NEAR_MIN_DIST_CM : ℚ := 35
def NEAR_MAX_DIST_CM : ℚ := 150
def MOVING_CM_S : ℚ := 8
def BR_MIN : ℚ := 4
def BR_MAX : ℚ := 30
def HR_MIN : ℚ := 35
def HR_MAX : ℚ := 200
def ABSENT_HOLD_MS : Nat := 1200
def ABSENT_CONFIRM : Nat := 8
def VITALS_CONFIRM : Nat := 5
def HUMAN_STABLE_FALLBACK_CONFIRM : Nat := 3
def TARGET_LOSS_GRACE_MS : Nat := 1200

/-- `PersonState` (lines 77–84). -/
inductive PersonState where
  | NO_TARGET
  | MULTI_TARGET
  | PRESENT_FAR
  | MOVING
  | STILL_NEAR
  | RESTING_VITALS
deriving DecidableEq, Repr

/-- `fabsf` on a finite value. -/
def qabs (q : ℚ) : ℚ := if q < 0 then -q else q

/-- `uint32_t` subtraction `a - b`, as applied to `millis()` values. -/
def wsub32 (a b : Nat) : Nat :=
  (a % 2 ^ 32 + 2 ^ 32 - b % 2 ^ 32) % 2 ^ 32

/-- Saturating `uint8_t` increment (`x < 255 ? x + 1 : 255`). -/
def sat255 (x : Nat) : Nat := if x < 255 then x + 1 else 255

/-- Wrapping `uint8_t` increment (`absentStreak++`). -/
def inc8 (x : Nat) : Nat := (x + 1) % 256

/-- The engine globals the fusion step reads and writes (lines 132–156);
the `EVT_TARGETS`/`EVT_STATE` cadence timers and previous-emission snapshot
do not interact with any verified property and are not modelled. -/
structure EngineState where
  cfg : Config
  lastDist : FVal
  lastBR : FVal
  lastHR : FVal
  lastPresenceMs : Nat
  absentStreak : Nat
  vitalsStreak : Nat
  humanStableStreak : Nat
  lastSingleTargetMs : Nat
  seenSingleTarget : Bool
  lastBioEmitMs : Nat
  t0 : Nat
deriving DecidableEq, Repr

/-- Boot values (lines 132–156, `setup`). -/
def initState : EngineState :=
  { cfg := { hostHeadMoving := false, forcedFocusCluster := -1,
             BIO_MS := 1000, TARGETS_MS := 250 },
    lastDist := none, lastBR := none, lastHR := none,
    lastPresenceMs := 0, absentStreak := 0, vitalsStreak := 0,
    humanStableStreak := 0, lastSingleTargetMs := 0,
    seenSingleTarget := false, lastBioEmitMs := 0, t0 := 0 }

/-- The per-frame sensor outputs the loop reads (lines 654–680), plus the
`millis()` timestamp. -/
structure FrameInput where
  human : Bool
  haveTargets : Bool
  targets : List Target
  dist_ok : Bool
  dist : FVal
  br_ok : Bool
  br : FVal
  hr_ok : Bool
  hr : FVal
  now : Nat
deriving DecidableEq, Repr

/-- `nTargets = haveTargets ? info.targets.size() : 0` (line 663). -/
def nTargetsOf (inp : FrameInput) : Nat :=
  if inp.haveTargets then inp.targets.length else 0

/-- The last-good update for one reading (lines 683–696): an ok, finite
reading is stored; otherwise the stale stored value is read back.  In both
branches the new stored value and the downstream value coincide. -/
def lastGood (ok : Bool) (v stored : FVal) : FVal :=
  if ok ∧ v.isSome then v else stored

/-- `present_now` (lines 698–700), evaluated on the post-update readings. -/
def presentNow (st : EngineState) (inp : FrameInput) : Bool :=
  inp.human || decide (0 < nTargetsOf inp) ||
    (inp.dist_ok && isFinitePositive (lastGood inp.dist_ok inp.dist st.lastDist)) ||
    (inp.br_ok && isFinitePositive (lastGood inp.br_ok inp.br st.lastBR)) ||
    (inp.hr_ok && isFinitePositive (lastGood inp.hr_ok inp.hr st.lastHR))

def b2n (b : Bool) : Nat := if b then 1 else 0

/-- `toU16ScaledOrNull` (lines 296–302): non-finite becomes the `0xFFFF`
sentinel; otherwise scale, clamp to `[0, 65534]`, and round to nearest
(`lroundf`; the clamped value is nonnegative, so rounding half away from
zero is the floor after adding one half).  The `float` multiplication is
taken exact. -/
def toU16ScaledOrNull (v : FVal) (scale : ℚ) : Nat :=
  match v with
  | none => 0xFFFF
  | some q =>
    let s := q * scale
    let s1 := if s < 0 then 0 else s
    let s2 := if s1 > 65534 then 65534 else s1
    (s2 + 1 / 2).floor.toNat

/-- The `EVT_BIO` payload assembled by `emitBio` (lines 377–389): `t_ms`,
`allowed`, `valid`, `br_new`, `hr_new`, then the two centi-bpm fields with
the `0xFFFF` sentinel when their `_ok` flag is off. -/
def emitBioPayload (t_ms : Nat) (allowed valid br_ok hr_ok : Bool)
    (br hr : FVal) : List Nat :=
  u32le t_ms ++ [b2n allowed, b2n valid, b2n br_ok, b2n hr_ok] ++
    u16le (if br_ok then toU16ScaledOrNull br 100 else 0xFFFF) ++
    u16le (if hr_ok then toU16ScaledOrNull hr 100 else 0xFFFF)

/-- Everything the frame computes that downstream consumers (and the
verified properties) observe. -/
structure FrameOutput where
  focus : FocusTarget
  dist_cm : FVal
  br : FVal
  hr : FVal
  presentNow : Bool
  presenceRecent : Bool
  moving : Bool
  near : Bool
  singleTarget : Bool
  fallbackTargetLock : Bool
  brValid : Bool
  hrValid : Bool
  vitalsAllowed : Bool
  vitalsValid : Bool
  vitalsStreakPre : Nat
  state : PersonState
  bioFrame : Option (List Nat)
deriving DecidableEq, Repr

/-- The cascading state decision (lines 744–760), returning the decided
state together with the `vitalsStreak` value after the decision (the
`NO_TARGET`, `MULTI_TARGET` and `MOVING` arms reset it to 0). -/
def decideState (presenceRecent : Bool) (absentStreak nTargets : Nat)
    (moving near : Bool) (streakPre : Nat) : PersonState × Nat :=
  if !presenceRecent && decide (ABSENT_CONFIRM ≤ absentStreak) then
    (.NO_TARGET, 0)
  else if decide (1 < nTargets) then (.MULTI_TARGET, 0)
  else if moving then (.MOVING, 0)
  else if near && decide (VITALS_CONFIRM ≤ streakPre) then
    (.RESTING_VITALS, streakPre)
  else if near then (.STILL_NEAR, streakPre)
  else (.PRESENT_FAR, streakPre)

/-- One radar-frame iteration of `loop()` (lines 651–786), from the sensor
reads through the state decision and the `EVT_BIO` emission.
`vitalsStreakPre` is the value `vitalsStreak` holds at the moment of the
state decision (after line 741, before lines 744–760). -/
def stepFrame (st : EngineState) (inp : FrameInput) : EngineState × FrameOutput :=
  let headMoving := st.cfg.hostHeadMoving
  let nTargets := nTargetsOf inp
  let focus := selectFocus st.cfg.forcedFocusCluster inp.haveTargets inp.targets
  let dist_cm := lastGood inp.dist_ok inp.dist st.lastDist
  let br := lastGood inp.br_ok inp.br st.lastBR
  let hr := lastGood inp.hr_ok inp.hr st.lastHR
  let present_now := presentNow st inp
  let now := inp.now
  let lastPresenceMs' := if present_now then now else st.lastPresenceMs
  let absentStreak' := if present_now then 0 else inc8 st.absentStreak
  let presence_recent := decide (wsub32 now lastPresenceMs' < ABSENT_HOLD_MS)
  let targetMoving := focus.valid &&
    (match focus.speed_cm_s with
     | some v => decide (MOVING_CM_S ≤ qabs v)
     | none => false)
  let moving := headMoving || targetMoving
  let near := inRange dist_cm NEAR_MIN_DIST_CM NEAR_MAX_DIST_CM
  let singleTarget := decide (nTargets = 1)
  let seenSingleTarget' := singleTarget || st.seenSingleTarget
  let lastSingleTargetMs' := if singleTarget then now else st.lastSingleTargetMs
  let humanStableStreak' :=
    if inp.human && !headMoving then sat255 st.humanStableStreak else 0
  let singleTargetRecent := seenSingleTarget' &&
    decide (wsub32 now lastSingleTargetMs' ≤ TARGET_LOSS_GRACE_MS)
  let fallbackTargetLock := !singleTarget && decide (nTargets = 0) &&
    singleTargetRecent &&
    decide (HUMAN_STABLE_FALLBACK_CONFIRM ≤ humanStableStreak')
  let br_valid := inp.br_ok && inRange br BR_MIN BR_MAX
  let hr_valid := inp.hr_ok && inRange hr HR_MIN HR_MAX
  let vitals_allowed := !headMoving && (singleTarget || fallbackTargetLock)
  let vitals_valid := vitals_allowed && br_valid && hr_valid
  let streakPre := if vitals_valid then sat255 st.vitalsStreak else 0
  let sd := decideState presence_recent absentStreak' nTargets moving near streakPre
  let bioDue := decide (st.cfg.BIO_MS ≤ wsub32 now st.lastBioEmitMs)
  let bioFrame :=
    if bioDue then
      some (emitBioPayload (wsub32 now st.t0) vitals_allowed vitals_valid
        (vitals_allowed && br_valid) (vitals_allowed && hr_valid) br hr)
    else none
  ({ st with
      lastDist := dist_cm, lastBR := br, lastHR := hr,
      lastPresenceMs := lastPresenceMs', absentStreak := absentStreak',
      vitalsStreak := sd.2, humanStableStreak := humanStableStreak',
      lastSingleTargetMs := lastSingleTargetMs',
      seenSingleTarget := seenSingleTarget',
      lastBioEmitMs := if bioDue then now else st.lastBioEmitMs },
    { focus := focus, dist_cm := dist_cm, br := br, hr := hr,
      presentNow := present_now, presenceRecent := presence_recent,
      moving := moving, near := near, singleTarget := singleTarget,
      fallbackTargetLock := fallbackTargetLock, brValid := br_valid,
      hrValid := hr_valid, vitalsAllowed := vitals_allowed,
      vitalsValid := vitals_valid, vitalsStreakPre := streakPre,
      state := sd.1, bioFrame := bioFrame })

/-- The vitals gate as the specification words it (§4.4 steps 8–9):
`vitals_allowed = ¬head_moving ∧ (single_target ∨ fallback_target_lock)`
with `single_target = (n_targets == 1)`,
`single_target_recent = seen_single_target ∧ now − last_single_target_ms ≤
TARGET_LOSS_GRACE_MS`, `fallback_target_lock = ¬single_target ∧
n_targets == 0 ∧ single_target_recent ∧ human_stable_streak ≥ 3`, all on
this frame's updated tracking state (`human_stable_streak` incremented
saturating at 255 when `human ∧ ¬head_moving`, else 0). -/
def vitalsAllowedSpec (st : EngineState) (inp : FrameInput) : Bool :=
  let n := nTargetsOf inp
  let single := decide (n = 1)
  let seen := single || st.seenSingleTarget
  let lastSingle := if single then inp.now else st.lastSingleTargetMs
  let hss := if inp.human && !st.cfg.hostHeadMoving
    then min (st.humanStableStreak + 1) 255 else 0
  let recent := seen && decide (wsub32 inp.now lastSingle ≤ TARGET_LOSS_GRACE_MS)
  let fallback := !single && decide (n = 0) && recent &&
    decide (HUMAN_STABLE_FALLBACK_CONFIRM ≤ hss)
  !st.cfg.hostHeadMoving && (single || fallback)
theorem sat255_eq_min (x : Nat) : sat255 x = min (x + 1) 255 := by
  unfold sat255
  split <;> omega

theorem wsub32_self (a : Nat) : wsub32 a a = 0 := by
  unfold wsub32
  omega

/-- The 12 bytes of an `EVT_BIO` payload, spelled out. -/
theorem emitBioPayload_eq (t : Nat) (a v bo ho : Bool) (br hr : FVal) :
    emitBioPayload t a v bo ho br hr =
      [t % 256, t / 256 % 256, t / 65536 % 256, t / 16777216 % 256,
        b2n a, b2n v, b2n bo, b2n ho,
        (if bo then toU16ScaledOrNull br 100 else 0xFFFF) % 256,
        (if bo then toU16ScaledOrNull br 100 else 0xFFFF) / 256 % 256,
        (if ho then toU16ScaledOrNull hr 100 else 0xFFFF) % 256,
        (if ho then toU16ScaledOrNull hr 100 else 0xFFFF) / 256 % 256] := rfl

theorem lastGood_cases (ok : Bool) (v stored : FVal) :
    (lastGood ok v stored = stored ∨
      (ok = true ∧ v.isSome = true ∧ lastGood ok v stored = v)) ∧
    (ok = false → lastGood ok v stored = stored) := by
  unfold lastGood
  by_cases h : ok = true ∧ v.isSome = true
  · exact ⟨Or.inr ⟨h.1, h.2, by rw [if_pos h]⟩,
      fun hf => by rw [hf] at h; simp at h⟩
  · exact ⟨Or.inl (by rw [if_neg h]), fun _ => by rw [if_neg h]⟩

/-- C3 could not be confirmed as stated; this is the amended form: the
last-good update stores a value only when the sensor delivered it with the
ok flag set and the value is finite (non-positive finite values are NOT
filtered), and a reading whose ok flag is false leaves the stored last-good
value unchanged and reuses it as the downstream value of the frame. -/
theorem c3_last_good_preservation (st : EngineState) (inp : FrameInput) :
    ((stepFrame st inp).1.lastDist = st.lastDist ∨
      (inp.dist_ok = true ∧ inp.dist.isSome = true ∧
        (stepFrame st inp).1.lastDist = inp.dist)) ∧
    (inp.dist_ok = false →
      (stepFrame st inp).1.lastDist = st.lastDist ∧
      (stepFrame st inp).2.dist_cm = st.lastDist) ∧
    ((stepFrame st inp).1.lastBR = st.lastBR ∨
      (inp.br_ok = true ∧ inp.br.isSome = true ∧
        (stepFrame st inp).1.lastBR = inp.br)) ∧
    (inp.br_ok = false →
      (stepFrame st inp).1.lastBR = st.lastBR ∧
      (stepFrame st inp).2.br = st.lastBR) ∧
    ((stepFrame st inp).1.lastHR = st.lastHR ∨
      (inp.hr_ok = true ∧ inp.hr.isSome = true ∧
        (stepFrame st inp).1.lastHR = inp.hr)) ∧
    (inp.hr_ok = false →
      (stepFrame st inp).1.lastHR = st.lastHR ∧
      (stepFrame st inp).2.hr = st.lastHR) := by
  simp only [stepFrame]
  exact ⟨(lastGood_cases inp.dist_ok inp.dist st.lastDist).1,
    fun h => ⟨(lastGood_cases inp.dist_ok inp.dist st.lastDist).2 h,
      (lastGood_cases inp.dist_ok inp.dist st.lastDist).2 h⟩,
    (lastGood_cases inp.br_ok inp.br st.lastBR).1,
    fun h => ⟨(lastGood_cases inp.br_ok inp.br st.lastBR).2 h,
      (lastGood_cases inp.br_ok inp.br st.lastBR).2 h⟩,
    (lastGood_cases inp.hr_ok inp.hr st.lastHR).1,
    fun h => ⟨(lastGood_cases inp.hr_ok inp.hr st.lastHR).2 h,
      (lastGood_cases inp.hr_ok inp.hr st.lastHR).2 h⟩⟩
/-- A frame delivering a finite but negative distance with the ok flag
set. -/
def negDistFrame : FrameInput :=
  { human := false, haveTargets := false, targets := [],
    dist_ok := true, dist := some (-1), br_ok := false, br := none,
    hr_ok := false, hr := none, now := 0 }

/-- Counterexample to C3 as stated: a frame reporting `dist_ok` with the
finite value −1 stores −1 into `last_dist` — the update guards only on
`isfinite`, never on positivity, so "unset or finite and strictly positive"
fails after this frame. -/
theorem c3_counterexample :
    (stepFrame initState negDistFrame).1.lastDist = some (-1) ∧
    ¬ ((stepFrame initState negDistFrame).1.lastDist = none ∨
       ∀ q : ℚ, (stepFrame initState negDistFrame).1.lastDist = some q → 0 < q) := by
  constructor
  · decide
  · intro h
    rcases h with h | h
    · exact absurd h (by decide)
    · have := h (-1) (by decide)
      exact absurd this (by decide)

/-- A frame on which every sensor reading is missing. -/
def allMissingFrame : FrameInput :=
  { human := false, haveTargets := false, targets := [],
    dist_ok := false, dist := none, br_ok := false, br := none,
    hr_ok := false, hr := none, now := 0 }

/-- Witness for the amended C3: with every ok flag false, the last-good
values survive unchanged and are reused downstream. -/
theorem c3_last_good_preservation_witness :
    (stepFrame initState allMissingFrame).1.lastDist = initState.lastDist ∧
    (stepFrame initState allMissingFrame).2.dist_cm = initState.lastDist ∧
    (stepFrame initState allMissingFrame).1.lastBR = initState.lastBR ∧
    (stepFrame initState allMissingFrame).2.br = initState.lastBR ∧
    (stepFrame initState allMissingFrame).1.lastHR = initState.lastHR ∧
    (stepFrame initState allMissingFrame).2.hr = initState.lastHR := by
  have h := c3_last_good_preservation initState allMissingFrame
  exact ⟨(h.2.1 rfl).1, (h.2.1 rfl).2, (h.2.2.2.1 rfl).1, (h.2.2.2.1 rfl).2,
    (h.2.2.2.2.2 rfl).1, (h.2.2.2.2.2 rfl).2⟩
/-- C4: vitals gating.  While `head_moving` is true, `vitals_allowed` and
`vitals_valid` are false and any `EVT_BIO` payload emitted on that frame
carries `allowed = 0` and `valid = 0`; in general `vitals_allowed` equals
the specification formula
`¬head_moving ∧ (single_target ∨ fallback_target_lock)`. -/
theorem c4_vitals_gating (st : EngineState) (inp : FrameInput) :
    (st.cfg.hostHeadMoving = true →
      (stepFrame st inp).2.vitalsAllowed = false ∧
      (stepFrame st inp).2.vitalsValid = false ∧
      ∀ pl, (stepFrame st inp).2.bioFrame = some pl →
        pl.getD 4 0 = 0 ∧ pl.getD 5 0 = 0) ∧
    (stepFrame st inp).2.vitalsAllowed = vitalsAllowedSpec st inp := by
  constructor
  · intro hm
    simp only [stepFrame, hm]
    refine ⟨by simp, by simp, ?_⟩
    intro pl hpl
    simp only [Bool.not_true, Bool.false_and] at hpl
    split at hpl
    · simp only [Option.some.injEq] at hpl
      rw [← hpl, emitBioPayload_eq]
      simp [b2n]
    · exact absurd hpl (by simp)
  · simp only [stepFrame, vitalsAllowedSpec, sat255_eq_min]

/-- Witness for C4: with `head_moving` set and a frame carrying fresh
in-range vitals, the emitted `EVT_BIO` still reports `allowed = 0`,
`valid = 0`. -/
theorem c4_vitals_gating_witness :
    ((stepFrame { initState with cfg := { initState.cfg with hostHeadMoving := true } }
        { human := true, haveTargets := true, targets := [],
          dist_ok := true, dist := some 80, br_ok := true, br := some 14,
          hr_ok := true, hr := some 72, now := 2000 }).2.vitalsAllowed = false) ∧
    ((stepFrame { initState with cfg := { initState.cfg with hostHeadMoving := true } }
        { human := true, haveTargets := true, targets := [],
          dist_ok := true, dist := some 80, br_ok := true, br := some 14,
          hr_ok := true, hr := some 72, now := 2000 }).2.bioFrame =
      some [208, 7, 0, 0, 0, 0, 0, 0, 255, 255, 255, 255]) := by
  have h := (c4_vitals_gating
    { initState with cfg := { initState.cfg with hostHeadMoving := true } }
    { human := true, haveTargets := true, targets := [],
      dist_ok := true, dist := some 80, br_ok := true, br := some 14,
      hr_ok := true, hr := some 72, now := 2000 }).1 rfl
  exact ⟨h.1, by decide⟩
theorem decideState_multi_streak (p : Bool) (a n : Nat) (m nr : Bool) (sp : Nat)
    (h : (decideState p a n m nr sp).1 = PersonState.MULTI_TARGET) :
    (decideState p a n m nr sp).2 = 0 := by
  unfold decideState at h ⊢
  split_ifs at h ⊢ <;> simp_all

theorem decideState_resting_streak (p : Bool) (a n : Nat) (m nr : Bool) (sp : Nat)
    (h : (decideState p a n m nr sp).1 = PersonState.RESTING_VITALS) :
    VITALS_CONFIRM ≤ sp := by
  unfold decideState at h
  split_ifs at h <;> simp_all

theorem decideState_no_target (p : Bool) (a n : Nat) (m nr : Bool) (sp : Nat)
    (h : (decideState p a n m nr sp).1 = PersonState.NO_TARGET) :
    p = false ∧ ABSENT_CONFIRM ≤ a := by
  unfold decideState at h
  split_ifs at h <;> simp_all

theorem stepFrame_state_eq (st : EngineState) (inp : FrameInput) :
    (stepFrame st inp).2.state =
      (decideState (stepFrame st inp).2.presenceRecent
        (stepFrame st inp).1.absentStreak (nTargetsOf inp)
        (stepFrame st inp).2.moving (stepFrame st inp).2.near
        (stepFrame st inp).2.vitalsStreakPre).1 := by
  simp only [stepFrame]

theorem stepFrame_streak_eq (st : EngineState) (inp : FrameInput) :
    (stepFrame st inp).1.vitalsStreak =
      (decideState (stepFrame st inp).2.presenceRecent
        (stepFrame st inp).1.absentStreak (nTargetsOf inp)
        (stepFrame st inp).2.moving (stepFrame st inp).2.near
        (stepFrame st inp).2.vitalsStreakPre).2 := by
  simp only [stepFrame]

theorem streakPre_le_aux (c : Bool) (x : Nat) : (if c = true then x else 0) ≤ x := by
  cases c <;> simp

theorem stepFrame_streakPre_le (st : EngineState) (inp : FrameInput) :
    (stepFrame st inp).2.vitalsStreakPre ≤ sat255 st.vitalsStreak := by
  simp only [stepFrame]
  exact streakPre_le_aux _ _

/-- C5: multi-target reset.  A frame with more than one target, or with
`head_moving` set, holds `vitals_streak = 0` at its state decision; and a
frame decided `MULTI_TARGET` is never immediately followed by a frame
decided `RESTING_VITALS` (`VITALS_CONFIRM = 5 > 1`). -/
theorem c5_multi_target_reset (st : EngineState) (i1 i2 : FrameInput) :
    ((1 < nTargetsOf i1 ∨ st.cfg.hostHeadMoving = true) →
      (stepFrame st i1).2.vitalsStreakPre = 0) ∧
    ((stepFrame st i1).2.state = PersonState.MULTI_TARGET →
      (stepFrame (stepFrame st i1).1 i2).2.state ≠ PersonState.RESTING_VITALS) := by
  constructor
  · intro h
    simp only [stepFrame]
    rcases h with h | h
    · have h1 : decide (nTargetsOf i1 = 1) = false := by simp; omega
      have h0 : decide (nTargetsOf i1 = 0) = false := by simp; omega
      simp [h1, h0]
    · simp [h]
  · intro h1 hr
    rw [stepFrame_state_eq] at h1
    have hz : (stepFrame st i1).1.vitalsStreak = 0 := by
      rw [stepFrame_streak_eq]
      exact decideState_multi_streak _ _ _ _ _ _ h1
    rw [stepFrame_state_eq] at hr
    have h5 := decideState_resting_streak _ _ _ _ _ _ hr
    have hle := stepFrame_streakPre_le (stepFrame st i1).1 i2
    rw [hz] at hle
    simp [sat255, VITALS_CONFIRM] at h5 hle
    omega
/-- A two-target frame (non-finite coordinates, so no focus). -/
def twoTargetFrame : FrameInput :=
  { human := true, haveTargets := true,
    targets := [{ cluster_index := 0, x_point := none, y_point := none,
                  dop_index := none },
                { cluster_index := 1, x_point := none, y_point := none,
                  dop_index := none }],
    dist_ok := true, dist := some 80, br_ok := true, br := some 14,
    hr_ok := true, hr := some 72, now := 100 }

/-- A single-target follow-up frame with in-range vitals. -/
def oneTargetFrame : FrameInput :=
  { human := true, haveTargets := true,
    targets := [{ cluster_index := 0, x_point := none, y_point := none,
                  dop_index := none }],
    dist_ok := true, dist := some 80, br_ok := true, br := some 14,
    hr_ok := true, hr := some 72, now := 200 }

/-- Witness for C5: the two-target frame holds a zero streak at its state
decision, and the next frame — despite a single target and perfect
vitals — cannot decide `RESTING_VITALS`. -/
theorem c5_multi_target_reset_witness :
    (stepFrame initState twoTargetFrame).2.vitalsStreakPre = 0 ∧
    (stepFrame (stepFrame initState twoTargetFrame).1 oneTargetFrame).2.state ≠
      PersonState.RESTING_VITALS := by
  have h := c5_multi_target_reset initState twoTargetFrame oneTargetFrame
  exact ⟨h.1 (Or.inl (by decide)), h.2 (by decide)⟩

/-- C6: `NO_TARGET` hysteresis.  A frame is decided `NO_TARGET` only when,
at the moment of the decision, presence is not recent
(`now − last_presence_ms ≥ ABSENT_HOLD_MS` in `uint32` arithmetic) and
`absent_streak ≥ ABSENT_CONFIRM`; and a frame with any presence signal
resets `absent_streak` to 0, stamps `last_presence_ms = now`, and can never
be decided `NO_TARGET`. -/
theorem c6_no_target_hysteresis (st : EngineState) (inp : FrameInput) :
    ((stepFrame st inp).2.state = PersonState.NO_TARGET →
      ABSENT_HOLD_MS ≤ wsub32 inp.now (stepFrame st inp).1.lastPresenceMs ∧
      ABSENT_CONFIRM ≤ (stepFrame st inp).1.absentStreak) ∧
    (presentNow st inp = true →
      (stepFrame st inp).1.absentStreak = 0 ∧
      (stepFrame st inp).1.lastPresenceMs = inp.now ∧
      (stepFrame st inp).2.state ≠ PersonState.NO_TARGET) := by
  constructor
  · intro h
    rw [stepFrame_state_eq] at h
    have hc := decideState_no_target _ _ _ _ _ _ h
    constructor
    · have hp : (stepFrame st inp).2.presenceRecent = false := hc.1
      simp only [stepFrame] at hp
      simp only [stepFrame]
      simp only [decide_eq_false_iff_not, not_lt] at hp
      exact hp
    · exact hc.2
  · intro h
    have habs : (stepFrame st inp).1.absentStreak = 0 := by
      simp only [stepFrame, h]
      simp
    have hlp : (stepFrame st inp).1.lastPresenceMs = inp.now := by
      simp only [stepFrame, h]
      simp
    refine ⟨habs, hlp, ?_⟩
    intro hs
    rw [stepFrame_state_eq] at hs
    have hc := decideState_no_target _ _ _ _ _ _ hs
    rw [habs] at hc
    have := hc.2
    simp [ABSENT_CONFIRM] at this

/-- A frame with no presence signal at all. -/
def absentFrame : FrameInput :=
  { human := false, haveTargets := false, targets := [],
    dist_ok := false, dist := none, br_ok := false, br := none,
    hr_ok := false, hr := none, now := 5000 }

/-- A state deep into an absence episode: presence last seen at time 0,
seven consecutive absent frames counted. -/
def absentState : EngineState :=
  { initState with lastPresenceMs := 0, absentStreak := 7 }

/-- Witness for C6: an eighth absent frame at `now = 5000` is decided
`NO_TARGET`, and the hysteresis conditions hold at the decision; a frame
with presence resets the streak and cannot be `NO_TARGET`. -/
theorem c6_no_target_hysteresis_witness :
    (ABSENT_HOLD_MS ≤ wsub32 absentFrame.now
        (stepFrame absentState absentFrame).1.lastPresenceMs ∧
      ABSENT_CONFIRM ≤ (stepFrame absentState absentFrame).1.absentStreak) ∧
    ((stepFrame initState twoTargetFrame).1.absentStreak = 0 ∧
      (stepFrame initState twoTargetFrame).1.lastPresenceMs = twoTargetFrame.now ∧
      (stepFrame initState twoTargetFrame).2.state ≠ PersonState.NO_TARGET) := by
  constructor
  · exact (c6_no_target_hysteresis absentState absentFrame).1 (by decide)
  · exact (c6_no_target_hysteresis initState twoTargetFrame).2 (by decide)
/-- C10: an `EVT_BIO` frame emitted while the vitals gate is closed always
carries `br_new = 0`, `hr_new = 0` and the `0xFFFF` sentinel in both
centi-bpm fields, regardless of what the sensor delivered on that frame:
`emitBio` is called with `br_emit_ok = vitals_allowed && br_valid` and
`hr_emit_ok = vitals_allowed && hr_valid` (lines 780–785), which are false
whenever `vitals_allowed` is. -/
theorem c10_bio_masks_ungated (st : EngineState) (inp : FrameInput) :
    (stepFrame st inp).2.vitalsAllowed = false →
    ∀ pl, (stepFrame st inp).2.bioFrame = some pl →
      pl.getD 6 0 = 0 ∧ pl.getD 7 0 = 0 ∧
      pl.getD 8 0 = 255 ∧ pl.getD 9 0 = 255 ∧
      pl.getD 10 0 = 255 ∧ pl.getD 11 0 = 255 := by
  intro hA pl hpl
  simp only [stepFrame] at hA hpl
  rw [hA] at hpl
  split at hpl
  · simp only [Option.some.injEq] at hpl
    rw [← hpl, emitBioPayload_eq]
    simp [b2n]
  · exact absurd hpl (by simp)

/-- The boot state with `head_moving` forced on by the host. -/
def gateClosedState : EngineState :=
  { initState with cfg := { initState.cfg with hostHeadMoving := true } }

/-- A single-target frame with fresh in-range vitals, far enough into the
run that the bio cadence (1000 ms) is due. -/
def freshVitalsFrame : FrameInput :=
  { human := true, haveTargets := true,
    targets := [{ cluster_index := 0, x_point := none, y_point := none,
                  dop_index := none }],
    dist_ok := true, dist := some 80, br_ok := true, br := some 14,
    hr_ok := true, hr := some 72, now := 2000 }

/-- Witness for C10: a frame with fresh, in-range breath and heart readings
but `head_moving` set (gate closed) emits a bio frame whose `br_new`,
`hr_new` are 0 and whose centi-bpm fields are both `0xFFFF`. -/
theorem c10_bio_masks_ungated_witness :
    ((stepFrame gateClosedState freshVitalsFrame).2.bioFrame.getD []).getD 6 0 = 0 ∧
    ((stepFrame gateClosedState freshVitalsFrame).2.bioFrame.getD []).getD 7 0 = 0 ∧
    ((stepFrame gateClosedState freshVitalsFrame).2.bioFrame.getD []).getD 8 0 = 255 ∧
    ((stepFrame gateClosedState freshVitalsFrame).2.bioFrame.getD []).getD 9 0 = 255 := by
  have h := c10_bio_masks_ungated gateClosedState freshVitalsFrame (by decide)
    ((stepFrame gateClosedState freshVitalsFrame).2.bioFrame.getD []) (by decide)
  exact ⟨h.1, h.2.1, h.2.2.1, h.2.2.2.1⟩
/-- A target at `x = 2e9` meters: its radius is finite but at least the
`1e9` initialisation of `best_r`. -/
def farTarget : Target :=
  { cluster_index := 0, x_point := some 2000000000, y_point := some 0,
    dop_index := some 0 }

/-- Counterexample to C9 as stated: the singleton list holding `farTarget`
has a target with finite `r` (so a smallest finite `r` exists), yet the
auto-selection returns no focus, because `pickClosestTarget` starts its
running best at `1e9` and only ever replaces it by a strictly smaller
radius. -/
theorem c9_counterexample :
    (rsqOf farTarget).isSome = true ∧
    (selectFocus (-1) true [farTarget]).valid = false := by
  constructor
  · rfl
  · norm_num [selectFocus, pickClosestTarget, pickClosestAux, rsqOf, farTarget,
      FocusTarget.valid]

/-- Soundness of the `pickClosestTarget` loop: either no target has a
finite squared radius below the running bound and the accumulator survives,
or the result is the first target attaining the strict minimum — it
strictly beats every earlier target with finite radius and weakly beats
every later one. -/
theorem pickClosestAux_spec (ts : List Target) :
    ∀ i best bRsq,
      ((∀ t ∈ ts, ∀ v, rsqOf t = some v → bRsq ≤ v) ∧
        pickClosestAux ts i best bRsq = best) ∨
      (∃ pre t post v, ts = pre ++ t :: post ∧ rsqOf t = some v ∧ v < bRsq ∧
        pickClosestAux ts i best bRsq = mkFocus (i + pre.length) t v ∧
        (∀ u ∈ pre, ∀ w, rsqOf u = some w → v < w) ∧
        (∀ u ∈ post, ∀ w, rsqOf u = some w → v ≤ w)) := by
  induction ts with
  | nil =>
    intro i best bRsq
    left
    exact ⟨by simp, rfl⟩
  | cons t0 rest ih =>
    intro i best bRsq
    rcases hr : rsqOf t0 with _ | w
    · rcases ih (i + 1) best bRsq with ⟨hall, heq⟩ | ⟨pre, t, post, v, hts, hrs, hvb, heq, hpre, hpost⟩
      · left
        refine ⟨?_, ?_⟩
        · intro t ht v hv
          rcases List.mem_cons.mp ht with h | h
          · rw [h, hr] at hv; exact absurd hv (by simp)
          · exact hall t h v hv
        · simp only [pickClosestAux, hr]; exact heq
      · right
        refine ⟨t0 :: pre, t, post, v, by rw [hts]; rfl, hrs, hvb, ?_, ?_, hpost⟩
        · simp only [pickClosestAux, hr]
          rw [heq]
          simp only [List.length_cons]
          congr 1
          omega
        · intro u hu w hw
          rcases List.mem_cons.mp hu with h | h
          · rw [h, hr] at hw; exact absurd hw (by simp)
          · exact hpre u h w hw
    · by_cases hlt : w < bRsq
      · rcases ih (i + 1) (mkFocus i t0 w) w with ⟨hall, heq⟩ | ⟨pre, t, post, v, hts, hrs, hvb, heq, hpre, hpost⟩
        · right
          refine ⟨[], t0, rest, w, rfl, hr, hlt, ?_, by simp, ?_⟩
          · simp only [pickClosestAux, hr]
            rw [if_pos hlt, heq]
            simp
          · intro u hu x hx
            exact hall u hu x hx
        · right
          refine ⟨t0 :: pre, t, post, v, by rw [hts]; rfl, hrs,
            lt_trans hvb hlt, ?_, ?_, hpost⟩
          · simp only [pickClosestAux, hr]
            rw [if_pos hlt, heq]
            simp only [List.length_cons]
            congr 1
            omega
          · intro u hu x hx
            rcases List.mem_cons.mp hu with h | h
            · rw [h, hr] at hx
              simp only [Option.some.injEq] at hx
              rw [← hx]
              exact hvb
            · exact hpre u h x hx
      · rcases ih (i + 1) best bRsq with ⟨hall, heq⟩ | ⟨pre, t, post, v, hts, hrs, hvb, heq, hpre, hpost⟩
        · left
          refine ⟨?_, ?_⟩
          · intro t ht v hv
            rcases List.mem_cons.mp ht with h | h
            · rw [h, hr] at hv
              simp only [Option.some.injEq] at hv
              rw [← hv]
              exact le_of_not_lt hlt
            · exact hall t h v hv
          · simp only [pickClosestAux, hr]
            rw [if_neg hlt]; exact heq
        · right
          refine ⟨t0 :: pre, t, post, v, by rw [hts]; rfl, hrs, hvb, ?_, ?_, hpost⟩
          · simp only [pickClosestAux, hr]
            rw [if_neg hlt, heq]
            simp only [List.length_cons]
            congr 1
            omega
          · intro u hu x hx
            rcases List.mem_cons.mp hu with h | h
            · rw [h, hr] at hx
              simp only [Option.some.injEq] at hx
              rw [← hx]
              calc v < bRsq := hvb
                _ ≤ w := le_of_not_lt hlt
            · exact hpre u h x hx

/-- Soundness of the `pickForcedCluster` loop: either no target matches the
forced cluster and the invalid default is returned, or the result is the
first matching target. -/
theorem pickForcedAux_spec (ts : List Target) :
    ∀ i cluster,
      ((∀ t ∈ ts, t.cluster_index ≠ cluster) ∧
        pickForcedAux ts i cluster = {}) ∨
      (∃ pre t post, ts = pre ++ t :: post ∧ t.cluster_index = cluster ∧
        (∀ u ∈ pre, u.cluster_index ≠ cluster) ∧
        pickForcedAux ts i cluster = mkFocusForced (i + pre.length) t) := by
  induction ts with
  | nil =>
    intro i cluster
    left
    exact ⟨by simp, rfl⟩
  | cons t0 rest ih =>
    intro i cluster
    by_cases hc : t0.cluster_index = cluster
    · right
      refine ⟨[], t0, rest, rfl, hc, by simp, ?_⟩
      rw [pickForcedAux, if_pos hc]
      simp
    · rcases ih (i + 1) cluster with ⟨hall, heq⟩ | ⟨pre, t, post, hts, htc, hpre, heq⟩
      · left
        refine ⟨?_, by rw [pickForcedAux, if_neg hc]; exact heq⟩
        intro t ht
        rcases List.mem_cons.mp ht with h | h
        · rw [h]; exact hc
        · exact hall t h
      · right
        refine ⟨t0 :: pre, t, post, by rw [hts]; rfl, htc, ?_, ?_⟩
        · intro u hu
          rcases List.mem_cons.mp hu with h | h
          · rw [h]; exact hc
          · exact hpre u h
        · rw [pickForcedAux, if_neg hc, heq]
          simp only [List.length_cons]
          congr 1
          omega
/-- C9 (amended): focus picking.  Without targets there is no focus.  With
`forced_focus_cluster ≥ 0` the focus is the first target in list order whose
cluster id matches, regardless of its radius, and when none matches the
selection falls back to the nearest.  In auto mode (`forced < 0`) the
selection is `pickClosestTarget`, which returns the first target attaining
the strict minimum among finite squared radii BELOW `1e18` (i.e. `r <
1e9`, the initial value of `best_r`): targets with finite `r ≥ 1e9` are
never selected, and if no target has finite `r < 1e9` there is no focus.
Ties break to the first in list order. -/
theorem c9_focus_picking (forced : Int) (have_t : Bool) (ts : List Target) :
    ((have_t = false ∨ ts = []) → (selectFocus forced have_t ts).valid = false) ∧
    (have_t = true → ts ≠ [] → 0 ≤ forced →
      ((∃ pre t post, ts = pre ++ t :: post ∧ t.cluster_index = forced ∧
          (∀ u ∈ pre, u.cluster_index ≠ forced) ∧
          selectFocus forced have_t ts = mkFocusForced pre.length t) ∨
        ((∀ t ∈ ts, t.cluster_index ≠ forced) ∧
          selectFocus forced have_t ts = pickClosestTarget ts))) ∧
    (have_t = true → ts ≠ [] → forced < 0 →
      selectFocus forced have_t ts = pickClosestTarget ts) ∧
    (((∀ t ∈ ts, ∀ v, rsqOf t = some v → 10 ^ 18 ≤ v) ∧
        pickClosestTarget ts = {}) ∨
      (∃ pre t post v, ts = pre ++ t :: post ∧ rsqOf t = some v ∧
        v < 10 ^ 18 ∧ pickClosestTarget ts = mkFocus pre.length t v ∧
        (∀ u ∈ pre, ∀ w, rsqOf u = some w → v < w) ∧
        (∀ u ∈ post, ∀ w, rsqOf u = some w → v ≤ w))) := by
  refine ⟨?_, ?_, ?_, ?_⟩
  · intro h
    unfold selectFocus
    rcases h with h | h
    · rw [if_neg (by simp [h])]
    · rw [if_neg (by simp [h])]
  · intro h1 h2 h3
    unfold selectFocus
    rw [if_pos ⟨h1, List.length_pos.mpr h2⟩, if_pos h3]
    have hforced : pickForcedCluster ts forced = pickForcedAux ts 0 forced := by
      unfold pickForcedCluster
      rw [if_neg (not_lt.mpr h3)]
    rcases pickForcedAux_spec ts 0 forced with ⟨hall, heq⟩ | ⟨pre, t, post, hts, htc, hpre, heq⟩
    · right
      refine ⟨hall, ?_⟩
      rw [hforced, heq]
      rfl
    · left
      refine ⟨pre, t, post, hts, htc, hpre, ?_⟩
      rw [hforced, heq]
      simp [mkFocusForced]
  · intro h1 h2 h3
    unfold selectFocus
    rw [if_pos ⟨h1, List.length_pos.mpr h2⟩, if_neg (not_le.mpr h3)]
  · rcases pickClosestAux_spec ts 0 {} (10 ^ 18) with ⟨hall, heq⟩ | ⟨pre, t, post, v, hts, hrs, hv, heq, hpre, hpost⟩
    · left
      exact ⟨hall, heq⟩
    · right
      refine ⟨pre, t, post, v, hts, hrs, hv, ?_, hpre, hpost⟩
      unfold pickClosestTarget
      rw [heq]
      simp

/-- Witness for C9: an empty or absent target list yields no focus, and
with `forced_focus_cluster = −1` the loop takes the `pickClosestTarget`
branch. -/
theorem c9_focus_picking_witness :
    (selectFocus 5 false []).valid = false ∧
    selectFocus (-1) true [farTarget] = pickClosestTarget [farTarget] := by
  refine ⟨(c9_focus_picking 5 false []).1 (Or.inl rfl), ?_⟩
  exact (c9_focus_picking (-1) true [farTarget]).2.2.1 rfl (by simp) (by norm_num)
end ReachySensor